import Mathlib

/-!
Verification development for the deCONZ REST plugin core
(src/rest_rules.cpp and src/de_web_plugin.cpp).

The definitions below are a shallow embedding of the C++ source:
QString values are modelled by String, QVariant maps that carry rule
conditions and actions are modelled by the record types they always hold,
std::vector and std::list by List, and the uint8/uint16 machine values by
Nat together with the very guards the source uses (the guards make
overflow impossible, so plain Nat arithmetic agrees with the machine
arithmetic).  Class definitions of Rule, Sensor, TaskItem and friends live
in headers that are not part of the two source files; their fields and
trivial setters are modelled as record fields, following the data model
the source manipulates.  External collaborators (JSON parser, radio
driver, timers, data base) are modelled as oracle parameters.
-/

namespace Deconz

/-! ## String helpers (QString operations used by the source) -/

/-- Tests whether the first list is a leading segment of the second,
    character by character (QString::indexOf(pat) == 0). -/
def listStarts : List Char → List Char → Bool
  | [], _ => true
  | _ :: _, [] => false
  | p :: ps, s :: ss => p = s && listStarts ps ss

/-- Returns the suffix of the second list beginning at the first occurrence
    of the first list, if any (QString::mid(QString::indexOf(pat))). -/
def subFrom (pat : List Char) : List Char → Option (List Char)
  | [] => if listStarts pat [] then some [] else none
  | c :: cs => if listStarts pat (c :: cs) then some (c :: cs) else subFrom pat cs

/-- QString::contains(pat) for plain substrings. -/
def strHas (s pat : String) : Bool := (subFrom pat.data s.data).isSome

/-- QString::mid(QString::indexOf(pat)); in the source this is only
    evaluated after a contains() guard, so the none case never fires
    there (we return the empty string in that case). -/
def strSuffixFrom (s pat : String) : String :=
  match subFrom pat.data s.data with
  | some cs => String.mk cs
  | none => ""

/-- QString::indexOf(pat) == 0. -/
def strStarts (s pat : String) : Bool := listStarts pat.data s.data

/-- First maximal run of decimal digits in the string:
    QRegExp of one-or-more digits, indexIn plus cap(0). -/
def firstDigits : List Char → Option (List Char)
  | [] => none
  | c :: cs =>
    if c.isDigit then some (c :: cs.takeWhile Char.isDigit) else firstDigits cs

/-- Numeric value of a list of decimal digits. -/
def natOfDigits (l : List Char) : Nat :=
  l.foldl (fun a c => a * 10 + (c.toNat - 48)) 0

/-- QString::toInt(): decimal integer with optional leading minus sign,
    0 if the string is not a number. -/
def qStringToInt (s : String) : Int :=
  match s.data with
  | [] => 0
  | c :: cs =>
    if c = '-' then
      if cs ≠ [] && cs.all Char.isDigit then -(natOfDigits cs : Int) else 0
    else if (c :: cs).all Char.isDigit then (natOfDigits (c :: cs) : Int) else 0

/-- Full match against the anchored pattern for positive integers used by
    checkConditions: one digit 1..9 followed by any digits. -/
def matchNumbersRe (s : String) : Bool :=
  match s.data with
  | [] => false
  | c :: cs => (49 ≤ c.toNat && c.toNat ≤ 57) && cs.all Char.isDigit

/-- Full match against the anchored pattern (true|false) used by
    checkConditions. -/
def matchBooleanRe (s : String) : Bool := s = "true" || s = "false"

/-! ## Rule data model (class Rule and friends, used by rest_rules.cpp) -/

/-- Rule lifecycle state, enum Rule::State. -/
inductive RuleState
  | normal
  | deleted
deriving DecidableEq, Repr

/-- One rule condition: address, operator and value strings
    (class RuleCondition; the source spells the operator field
    ooperator). -/
structure RuleCondition where
  address : String
  ooperator : String
  value : String
deriving DecidableEq, Repr

/-- One rule action: address, method and body strings (class RuleAction).
    Equality of actions and of conditions is field-wise, which is what the
    de-dup comparison in createRule uses. -/
structure RuleAction where
  address : String
  method : String
  body : String
deriving DecidableEq, Repr

/-- The Rule record as manipulated by the two source files.  Ids are the
    short decimal strings generated by createRule; we model them by their
    numeric value.  The etag, an MD5 of the current time recomputed by
    updateEtag at each mutation, is modelled by a generation counter that
    is set to a caller-supplied fresh value on each updateEtag call. -/
structure Rule where
  id : Nat
  name : String
  owner : String
  status : String
  state : RuleState
  triggerPeriodic : Int
  conditions : List RuleCondition
  actions : List RuleAction
  timesTriggered : Nat
  etagGen : Nat
deriving DecidableEq, Repr

/-! ## getRuleForId (de_web_plugin.cpp) -/

/-- DeRestPluginPrivate::getRuleForId: first scan for a rule with the id
    whose state is not Deleted, then a second scan for any rule with the
    id, else null. -/
def getRuleForId (rules : List Rule) (id : Nat) : Option Rule :=
  match rules.find? (fun r => decide (r.id = id ∧ r.state ≠ RuleState.deleted)) with
  | some r => some r
  | none => rules.find? (fun r => decide (r.id = id))

/-! ## createRule: id generation and de-dup insert (rest_rules.cpp) -/

/-- One pass of the id-search loop in createRule: walk all rules and, on
    each match of the running candidate, bump the candidate to that id
    plus one.  The pass changed nothing exactly when it reports the
    candidate unchanged. -/
def nextIdPass (rules : List Rule) (c : Nat) : Nat :=
  rules.foldl (fun acc r => if r.id = acc then r.id + 1 else acc) c

/-- Largest rule id present in the store, used only to bound the number of
    do-while passes of the id search. -/
def maxRuleId (rules : List Rule) : Nat :=
  rules.foldr (fun r m => max r.id m) 0

/-- The do-while of createRule: repeat passes until one pass leaves the
    candidate unchanged.  The fuel bounds the iteration; genLoopFuel with
    fuel at least maxRuleId + 2 always reaches the fixed point (proved
    below). -/
def genLoopFuel (rules : List Rule) : Nat → Nat → Nat
  | 0, c => c
  | fuel + 1, c =>
    let c2 := nextIdPass rules c
    if c2 = c then c else genLoopFuel rules fuel c2

/-- The id createRule assigns to a newly posted rule: candidate starts at
    1 and is driven to a fixed point of nextIdPass. -/
def freshRuleId (rules : List Rule) : Nat :=
  genLoopFuel rules (maxRuleId rules + 2) 1

/-- The de-dup insertion at the end of createRule: the first rule whose
    actions and conditions both equal those of the new rule is overwritten
    in place; if none exists the new rule is appended. -/
def dedupInsert (newRule : Rule) : List Rule → List Rule
  | [] => [newRule]
  | r :: rest =>
    if r.actions = newRule.actions ∧ r.conditions = newRule.conditions then
      newRule :: rest
    else r :: dedupInsert newRule rest

/-- The success path of createRule after validation: build the rule with a
    freshly generated id, de-dup insert it, and answer with the new id. -/
def createRulePost (rules : List Rule) (name owner : String) (status : Option String)
    (periodic : Option Int) (conds : List RuleCondition) (acts : List RuleAction)
    (fresh : Nat) : List Rule × Nat :=
  let rid := freshRuleId rules
  let rule : Rule :=
    { id := rid, name := name, owner := owner, status := status.getD "enabled",
      state := RuleState.normal, triggerPeriodic := periodic.getD 0,
      conditions := conds, actions := acts, timesTriggered := 0, etagGen := fresh }
  (dedupInsert rule rules, rid)

/-! ## Sensors and condition validation (checkConditions, rest_rules.cpp) -/

/-- The slice of a Sensor record that checkConditions reads: its id (a
    decimal string used in resource paths) and its type tag.  The source
    field is called type, a reserved word here, hence stype. -/
structure SensorInfo where
  id : String
  stype : String
deriving DecidableEq, Repr

/-- The condition addresses checkConditions considers valid for one
    present sensor: the four universal config and state entries plus the
    per-type entries. -/
def sensorValidAddresses (s : SensorInfo) : List String :=
  let base := "/sensors/" ++ s.id
  [base ++ "/config/reachable", base ++ "/config/on",
   base ++ "/config/battery", base ++ "/state/lastupdated"] ++
  (if s.stype = "ZGPSwitch" then [base ++ "/state/buttonevent"]
   else if s.stype = "ZHASwitch" then [base ++ "/state/buttonevent"]
   else if s.stype = "ZHALight" then [base ++ "/state/illuminance"]
   else if s.stype = "ZHAPresence" then [base ++ "/state/presence"]
   else if s.stype = "CLIPOpenClose" then [base ++ "/state/open"]
   else if s.stype = "CLIPPresence" then [base ++ "/state/presence"]
   else if s.stype = "CLIPTemperature" then [base ++ "/state/temperature"]
   else if s.stype = "CLIPHumidity" then [base ++ "/state/humidity"]
   else if s.stype = "DaylightSensor" then
     [base ++ "/state/daylight", base ++ "/config/long", base ++ "/config/lat",
      base ++ "/config/sunriseoffset", base ++ "/config/sunsetoffset"]
   else if s.stype = "CLIPGenericFlag" then [base ++ "/state/flag"]
   else if s.stype = "CLIPGenericStatus" then [base ++ "/state/status"]
   else [])

/-- All valid condition addresses over the present sensors, in sensor
    order. -/
def allValidAddresses (sensors : List SensorInfo) : List String :=
  sensors.foldl (fun acc s => acc ++ sensorValidAddresses s) []

/-- The operator whitelist checkConditions builds for a confstate suffix.
    The first branch really tests the state spellings of long and lat even
    though those attributes only exist under config, exactly as the source
    does. -/
def validOperatorsFor (confstate : String) : List String :=
  if confstate = "/state/lastupdated" ∨ confstate = "/state/long" ∨
     confstate = "/state/lat" then ["dx"]
  else if confstate = "/state/illuminance" ∨ confstate = "/state/presence" then
    ["dx", "eq", "lt", "gt"]
  else if confstate = "/config/reachable" ∨ confstate = "/config/on" ∨
     confstate = "/state/open" ∨ confstate = "/state/presence" ∨
     confstate = "/state/flag" ∨ confstate = "/state/daylight" then ["dx", "eq"]
  else if confstate = "/config/battery" ∨ confstate = "/state/buttonevent" ∨
     confstate = "/state/temperature" ∨ confstate = "/state/humidity" then
    ["dx", "eq", "gt", "lt"]
  else if confstate = "/config/sunriseoffset" ∨ confstate = "/config/sunsetoffset" then
    ["eq", "gt", "lt"]
  else []

/-- The value category checkConditions assigns alongside the operator
    whitelist: the word numbers, the word boolean, or empty. -/
def validValuesFor (confstate : String) : String :=
  if confstate = "/state/lastupdated" ∨ confstate = "/state/long" ∨
     confstate = "/state/lat" then ""
  else if confstate = "/state/illuminance" ∨ confstate = "/state/presence" then
    "numbers"
  else if confstate = "/config/reachable" ∨ confstate = "/config/on" ∨
     confstate = "/state/open" ∨ confstate = "/state/presence" ∨
     confstate = "/state/flag" ∨ confstate = "/state/daylight" then "boolean"
  else if confstate = "/config/battery" ∨ confstate = "/state/buttonevent" ∨
     confstate = "/state/temperature" ∨ confstate = "/state/humidity" then
    "numbers"
  else if confstate = "/config/sunriseoffset" ∨ confstate = "/config/sunsetoffset" then
    "numbers"
  else ""

/-- Outcome of checkConditions for one condition, keeping apart which
    error payload the source appends.  The last three all carry the
    ERR_INVALID_VALUE error code. -/
inductive CondCheck
  | ok
  | errResourceNotAvailable
  | errInvalidOperator
  | errValueNotModifiable
  | errInvalidValue
deriving DecidableEq, Repr

/-- The per-condition body of the checkConditions loop: confstate
    extraction, address presence, operator whitelist, then the value
    checks in source order. -/
def checkCondition (validAddrs : List String) (c : RuleCondition) : CondCheck :=
  let confstate :=
    if strHas c.address "/config" then strSuffixFrom c.address "/config"
    else if strHas c.address "/state" then strSuffixFrom c.address "/state"
    else ""
  if ¬ validAddrs.contains c.address then CondCheck.errResourceNotAvailable
  else if ¬ (validOperatorsFor confstate).contains c.ooperator then
    CondCheck.errInvalidOperator
  else if c.ooperator = "dx" then
    if c.value ≠ "" then CondCheck.errValueNotModifiable else CondCheck.ok
  else if validValuesFor confstate = "numbers" then
    if ¬ matchNumbersRe c.value then CondCheck.errInvalidValue else CondCheck.ok
  else if validValuesFor confstate = "boolean" then
    if ¬ matchBooleanRe c.value then CondCheck.errInvalidValue else CondCheck.ok
  else CondCheck.ok

/-- Loop of checkConditions over the submitted list; the first failing
    condition aborts with its error. -/
def checkConditionsGo (validAddrs : List String) : List RuleCondition → CondCheck
  | [] => CondCheck.ok
  | c :: rest =>
    match checkCondition validAddrs c with
    | CondCheck.ok => checkConditionsGo validAddrs rest
    | e => e

/-- DeRestPluginPrivate::checkConditions over the present sensor set. -/
def checkConditions (sensors : List SensorInfo) (conds : List RuleCondition) : CondCheck :=
  checkConditionsGo (allValidAddresses sensors) conds

/-! ## Action validation (checkActions, rest_rules.cpp) -/

/-- Outcome of checkActions, keeping apart the three error payloads. -/
inductive ActionCheck
  | ok
  | errActionError
  | errInvalidMethod
  | errInvalidJson
deriving DecidableEq, Repr

/-- Loop of checkActions: each action address must start with one of the
    five resource roots and be new, the method must be one of the four
    verbs, and the body must parse as JSON (the JSON parser is external;
    jsonOk is its oracle). -/
def checkActionsGo (jsonOk : String → Bool) (seen : List String) :
    List RuleAction → ActionCheck
  | [] => ActionCheck.ok
  | a :: rest =>
    if ¬ (strStarts a.address "/lights" ∨ strStarts a.address "/groups" ∨
          strStarts a.address "/scenes" ∨ strStarts a.address "/schedules" ∨
          strStarts a.address "/sensors") ∨ seen.contains a.address then
      ActionCheck.errActionError
    else if ¬ (a.method = "PUT" ∨ a.method = "POST" ∨ a.method = "DELETE" ∨
               a.method = "BIND") then ActionCheck.errInvalidMethod
    else if ¬ jsonOk a.body then ActionCheck.errInvalidJson
    else checkActionsGo jsonOk (seen ++ [a.address]) rest

/-- DeRestPluginPrivate::checkActions. -/
def checkActions (jsonOk : String → Bool) (acts : List RuleAction) : ActionCheck :=
  checkActionsGo jsonOk [] acts

/-! ## PUT on a rule (updateRule, rest_rules.cpp)

The request body is any subset of name, status, conditions, actions and
periodic; unknown keys and malformed values are rejected before the store
is touched, so the mutation phase below receives an already validated
body.  The name, when present, already passed the non-empty and length
checks (an invalid name aborts the request earlier). -/

/-- The validated PUT body of updateRule. -/
structure RuleUpdateBody where
  name : Option String
  status : Option String
  conditions : Option (List RuleCondition)
  actions : Option (List RuleAction)
  periodic : Option Int

/-- Result of mutating the matched rule: the rule after the handler ran,
    the changed flag, and whether checkActions or checkConditions aborted
    the request with Bad Request (the source then returns with the
    mutations made so far kept in place). -/
structure UpdateResult where
  rule : Rule
  changed : Bool
  badRequest : Bool
deriving DecidableEq, Repr

/-- Tail of the matched-rule branch of updateRule: without a status key
    the rule is unconditionally re-enabled, and only a set changed flag
    recomputes the etag. -/
def finishUpdate (fresh : Nat) (hasStatus : Bool) (r : Rule) (changed : Bool) :
    UpdateResult :=
  let r := if ¬ hasStatus then { r with status := "enabled" } else r
  let r := if changed then { r with etagGen := fresh } else r
  { rule := r, changed := changed, badRequest := false }

/-- Conditions phase of updateRule: a present conditions key always sets
    the changed flag, then either installs the new conditions or aborts
    with Bad Request. -/
def updateCondPhase (sensors : List SensorInfo) (fresh : Nat) (body : RuleUpdateBody)
    (r : Rule) (changed : Bool) : UpdateResult :=
  match body.conditions with
  | some cs =>
    if checkConditions sensors cs = CondCheck.ok then
      finishUpdate fresh body.status.isSome { r with conditions := cs } true
    else { rule := r, changed := true, badRequest := true }
  | none => finishUpdate fresh body.status.isSome r changed

/-- Actions phase of updateRule: a present actions key always sets the
    changed flag, then either installs the new actions or aborts with Bad
    Request. -/
def updateActPhase (sensors : List SensorInfo) (jsonOk : String → Bool) (fresh : Nat)
    (body : RuleUpdateBody) (r : Rule) (changed : Bool) : UpdateResult :=
  match body.actions with
  | some as =>
    if checkActions jsonOk as = ActionCheck.ok then
      updateCondPhase sensors fresh body { r with actions := as } true
    else { rule := r, changed := true, badRequest := true }
  | none => updateCondPhase sensors fresh body r changed

/-- The matched-rule branch of updateRule in source order: disable first
    when actions or conditions will change, then name, status and periodic
    with their equality guards on the changed flag, then the actions and
    conditions phases, re-enable without a status key, and the etag
    update under the changed flag. -/
def updateMatchedRule (sensors : List SensorInfo) (jsonOk : String → Bool) (fresh : Nat)
    (body : RuleUpdateBody) (r0 : Rule) : UpdateResult :=
  let r1 := if body.actions.isSome || body.conditions.isSome then
    { r0 with status := "disabled" } else r0
  let s2 :=
    match body.name with
    | some n =>
      if n ≠ "" ∧ r1.name ≠ n then ({ r1 with name := n }, true) else (r1, false)
    | none => (r1, false)
  let s3 :=
    match body.status with
    | some st =>
      if s2.1.status ≠ st then ({ s2.1 with status := st }, true) else s2
    | none => s2
  let s4 :=
    match body.periodic with
    | some p =>
      if s3.1.triggerPeriodic ≠ p then ({ s3.1 with triggerPeriodic := p }, true)
      else s3
    | none => s3
  updateActPhase sensors jsonOk fresh body s4.1 s4.2

/-- The rule-store loop of updateRule: rules that are not in Normal state
    are skipped; the first Normal rule with the requested id is mutated
    and the loop breaks. -/
def updateRuleList (sensors : List SensorInfo) (jsonOk : String → Bool) (fresh : Nat)
    (body : RuleUpdateBody) (id : Nat) : List Rule → List Rule
  | [] => []
  | r :: rest =>
    if r.state = RuleState.normal ∧ r.id = id then
      (updateMatchedRule sensors jsonOk fresh body r).rule :: rest
    else r :: updateRuleList sensors jsonOk fresh body id rest

/-! ## Green-power button events (gpProcessButtonEvent, de_web_plugin.cpp)

The handler updates the sensor state from the indication, then scans all
rules.  The local variables address, id, event, op and val are declared
once outside both loops, so the id parsed from one condition address
persists into conditions and rules whose addresses carry no number; we
thread id through the folds for that reason. -/

/-- Condition-scan state of gpProcessButtonEvent: the two match flags
    (ok for a buttonevent condition, ok2 for a lastupdated condition) and
    the persisting id variable. -/
structure GpScan where
  ok : Bool
  ok2 : Bool
  id : String
deriving DecidableEq, Repr

/-- One iteration of the condition loop: parse the first digit run of the
    condition address into id (keeping the previous id when there is
    none), classify the condition as buttonevent or lastupdated by
    substring, and, when the id equals the sensor id, refresh the
    matching flag from the sensor event. -/
def gpScanCondition (sensorId : String) (buttonevent : Int) (lastChanged : Bool)
    (st : GpScan) (c : RuleCondition) : GpScan :=
  let id :=
    match firstDigits c.address.data with
    | some ds => String.mk ds
    | none => st.id
  let event := if strHas c.address "buttonevent" then "buttonevent" else "lastupdated"
  if id ≠ "" ∧ id = sensorId then
    let st := { st with id := id }
    let st :=
      if event = "buttonevent" then
        { st with ok := qStringToInt c.value = buttonevent }
      else st
    if event = "lastupdated" then { st with ok2 := lastChanged } else st
  else { st with id := id }

/-- The condition loop of gpProcessButtonEvent over one rule. -/
def gpScanConditions (sensorId : String) (buttonevent : Int) (lastChanged : Bool)
    (st : GpScan) (conds : List RuleCondition) : GpScan :=
  conds.foldl (gpScanCondition sensorId buttonevent lastChanged) st

/-- Whether gpProcessButtonEvent runs the actions of one non-deleted rule:
    both flags, freshly initialised to false for the rule, must have been
    set.  idInit is the value the persisting id variable carries when the
    rule is reached. -/
def gpRuleTriggers (sensorId : String) (buttonevent : Int) (lastChanged : Bool)
    (idInit : String) (r : Rule) : Bool :=
  r.state ≠ RuleState.deleted ∧
    (let st := gpScanConditions sensorId buttonevent lastChanged
        { ok := false, ok2 := false, id := idInit } r.conditions
     st.ok ∧ st.ok2)

/-- The rule scan of gpProcessButtonEvent, returning each rule with its
    times-triggered counter incremented exactly when its actions ran.  The
    source writes the counter through getRuleForId on the rule id; with
    the unique ids the store maintains this is the rule itself. -/
def gpProcessRules (sensorId : String) (buttonevent : Int) (lastChanged : Bool)
    (rules : List Rule) : List Rule :=
  (rules.foldl
    (fun acc r =>
      let st0 : GpScan := { ok := false, ok2 := false, id := acc.2 }
      if r.state ≠ RuleState.deleted then
        let st := gpScanConditions sensorId buttonevent lastChanged st0 r.conditions
        if st.ok ∧ st.ok2 then
          (acc.1 ++ [{ r with timesTriggered := r.timesTriggered + 1 }], st.id)
        else (acc.1 ++ [r], st.id)
      else (acc.1 ++ [r], acc.2))
    (([] : List Rule), "")).1

/-! ## The outbound task pipeline (addTask, processTasks, apsdeDataConfirm,
refreshAll; de_web_plugin.cpp)

TaskItem carries an APS request; the fields below are exactly the ones the
pipeline compares or branches on.  Destination addresses are abstract
values with equality, radio outcomes come from an oracle. -/

/-- Task types referenced by the two source files.  The first ten are the
    types addTask always appends rather than coalesces. -/
inductive TaskType
  | getSceneMembership
  | getGroupMembership
  | getGroupIdentifiers
  | storeScene
  | removeScene
  | removeAllScenes
  | readAttributes
  | writeAttribute
  | viewScene
  | addScene
  | setOnOff
  | sendOnOffToggle
  | setLevel
  | stopLevel
  | moveLevel
  | setColorLoop
  | setXyColor
  | setSat
  | setHueAndSaturation
  | setEnhancedHue
  | setColorTemperature
  | callScene
  | addToGroup
  | removeFromGroup
  | viewGroup
deriving DecidableEq, Repr

/-- The exemption list of addTask: these task types are never coalesced. -/
def alwaysAppendType (t : TaskType) : Bool :=
  t = TaskType.getSceneMembership ∨ t = TaskType.getGroupMembership ∨
  t = TaskType.getGroupIdentifiers ∨ t = TaskType.storeScene ∨
  t = TaskType.removeScene ∨ t = TaskType.removeAllScenes ∨
  t = TaskType.readAttributes ∨ t = TaskType.writeAttribute ∨
  t = TaskType.viewScene ∨ t = TaskType.addScene

/-- Destination address modes of an APS request. -/
inductive AddrMode
  | group
  | ext
  | nwk
deriving DecidableEq, Repr

/-- The APS request fields the pipeline reads: the request id used by the
    confirm correlation, the destination address and endpoints, profile,
    cluster, transmit options, payload size, address mode and the
    fire-and-forget state flag. -/
structure ApsRequest where
  reqId : Nat
  dstAddress : Nat
  dstEndpoint : Nat
  srcEndpoint : Nat
  profileId : Nat
  clusterId : Nat
  txOptions : Nat
  asduSize : Nat
  dstAddrMode : AddrMode
  fireAndForget : Bool
deriving DecidableEq, Repr

/-- A pipeline task: its type, its request, and whether its light node
    back-reference points at an unavailable node (the zombie drop test). -/
structure TaskItem where
  taskType : TaskType
  req : ApsRequest
  lightZombie : Bool
deriving DecidableEq, Repr

/-- The seven-field signature equality addTask uses to coalesce a task
    with a queued one. -/
def sameSignature (a b : TaskItem) : Bool :=
  a.req.dstAddress = b.req.dstAddress ∧ a.req.dstEndpoint = b.req.dstEndpoint ∧
  a.req.srcEndpoint = b.req.srcEndpoint ∧ a.req.profileId = b.req.profileId ∧
  a.req.clusterId = b.req.clusterId ∧ a.req.txOptions = b.req.txOptions ∧
  a.req.asduSize = b.req.asduSize

/-- The coalescing scan of addTask: replace the first queued task of equal
    type and signature in place, or report that none matched. -/
def addTaskScan (t : TaskItem) : List TaskItem → Option (List TaskItem)
  | [] => none
  | x :: rest =>
    if x.taskType = t.taskType ∧ sameSignature x t then some (t :: rest)
    else (addTaskScan t rest).map (fun ts => x :: ts)

/-- DeRestPluginPrivate::addTask: reject when not in network; coalesce
    non-exempt types in place; otherwise append while fewer than 20 tasks
    are queued, else reject. -/
def addTask (inNetwork : Bool) (tasks : List TaskItem) (t : TaskItem) :
    Bool × List TaskItem :=
  if ¬ inNetwork then (false, tasks)
  else
    match (if alwaysAppendType t.taskType then none else addTaskScan t tasks) with
    | some ts => (true, ts)
    | none => if tasks.length < 20 then (true, tasks ++ [t]) else (false, tasks)

/-- Result of handing a request to the radio driver
    (deCONZ::ApsController::apsdeDataRequest). -/
inductive SendResult
  | success
  | zombieErr
  | otherErr
deriving DecidableEq, Repr

/-- Oracle for the external collaborators of processTasks: whether the
    plugin holds a controller, the outcome the driver reports for a
    request, whether a group with the destination group address exists,
    and whether its rate-limit window admits a send now. -/
structure PipelineEnv where
  hasApsCtrl : Bool
  send : TaskItem → SendResult
  groupFound : Nat → Bool
  groupReady : Nat → Bool

/-- The dispatch loop of processTasks over the ready queue, given the
    running list: drop zombie unicasts, skip destinations that already
    have a running task, send at most one request and move it to the
    running list unless it is fire-and-forget.  Returns the remaining
    ready queue and the new running list. -/
def processLoop (env : PipelineEnv) (running : List TaskItem) :
    List TaskItem → List TaskItem × List TaskItem
  | [] => ([], running)
  | t :: rest =>
    if t.lightZombie then (rest, running)
    else if running.any (fun r => r.req.dstAddress = t.req.dstAddress) then
      let s := processLoop env running rest
      (t :: s.1, s.2)
    else if t.req.dstAddrMode = AddrMode.group then
      if env.groupFound t.req.dstAddress ∧ env.groupReady t.req.dstAddress then
        match env.send t with
        | SendResult.success =>
          (rest, if t.req.fireAndForget then running else running ++ [t])
        | _ =>
          let s := processLoop env running rest
          (t :: s.1, s.2)
      else
        let s := processLoop env running rest
        (t :: s.1, s.2)
    else
      if t.lightZombie then (rest, running)
      else
        match env.send t with
        | SendResult.success =>
          (rest, if t.req.fireAndForget then running else running ++ [t])
        | SendResult.zombieErr => (rest, running)
        | SendResult.otherErr =>
          let s := processLoop env running rest
          (t :: s.1, s.2)

/-- The pipeline state: the ready queue, the running list awaiting
    confirms, and the network flag. -/
structure PState where
  tasks : List TaskItem
  running : List TaskItem
  inNetwork : Bool
deriving Repr

/-- DeRestPluginPrivate::processTasks: bail out without a controller, on
    an empty queue, or with more than four running tasks; clear both
    queues when not in network; otherwise run the dispatch loop. -/
def processTasks (env : PipelineEnv) (s : PState) : PState :=
  if ¬ env.hasApsCtrl then s
  else if s.tasks = [] then s
  else if ¬ s.inNetwork then { s with tasks := [], running := [] }
  else if 4 < s.running.length then s
  else
    let p := processLoop env s.running s.tasks
    { s with tasks := p.1, running := p.2 }

/-- Remove the first running task whose request id matches the confirm
    id, reporting whether one was found. -/
def eraseFirstById (cid : Nat) : List TaskItem → Option (List TaskItem)
  | [] => none
  | t :: rest =>
    if t.req.reqId = cid then some rest
    else (eraseFirstById cid rest).map (fun ts => t :: ts)

/-- DeRestPluginPrivate::apsdeDataConfirm: erase the matching running task
    and fire processTasks again; confirms that match no running task leave
    both queues alone (the remaining branches of the handler never touch
    them). -/
def apsdeDataConfirm (env : PipelineEnv) (cid : Nat) (s : PState) : PState :=
  match eraseFirstById cid s.running with
  | some rs => processTasks env { s with running := rs }
  | none => s

/-- One externally triggered transition of the pipeline state: a
    processTasks tick, a radio confirm, an addTask enqueue, the refreshAll
    clear of both queues, or a network state change. -/
inductive PStep : PState → PState → Prop
  | process (env : PipelineEnv) (s : PState) : PStep s (processTasks env s)
  | confirm (env : PipelineEnv) (cid : Nat) (s : PState) :
      PStep s (apsdeDataConfirm env cid s)
  | enqueue (t : TaskItem) (s : PState) :
      PStep s { s with tasks := (addTask s.inNetwork s.tasks t).2 }
  | refreshAll (s : PState) : PStep s { s with tasks := [], running := [] }
  | netChange (b : Bool) (s : PState) : PStep s { s with inNetwork := b }

/-- Pipeline states reachable from a start state with an empty running
    list. -/
inductive PReachable : PState → Prop
  | init (tasks : List TaskItem) (b : Bool) :
      PReachable { tasks := tasks, running := [], inNetwork := b }
  | step {s t : PState} : PReachable s → PStep s t → PReachable t

/-! ## Group cluster responses (handleGroupClusterIndication,
de_web_plugin.cpp) -/

/-- The group and scene bookkeeping counters of a LightNode, each a uint8
    value. -/
structure LightCounters where
  groupCapacity : Nat
  groupCount : Nat
  sceneCapacity : Nat
deriving DecidableEq, Repr

/-- The AddGroup response branch: on ZCL status success the group capacity
    shrinks by the endpoint count only while it does not underflow, and
    the group count grows by one only below 255. -/
def addGroupResponse (status : Nat) (endpointCount : Nat) (l : LightCounters) :
    LightCounters :=
  if status = 0 then
    let capacity :=
      if endpointCount ≤ l.groupCapacity then l.groupCapacity - endpointCount
      else l.groupCapacity
    let count := if l.groupCount < 255 then l.groupCount + 1 else l.groupCount
    { l with groupCapacity := capacity, groupCount := count }
  else l

/-- The RemoveGroup response branch: on success, and when the light still
    holds a GroupInfo record for the group (whose scene count is passed as
    sceneCount), the scene capacity is restored clamped at 255, the group
    capacity grows by the endpoint count only while the sum stays at most
    255, and the group count shrinks by one only above zero. -/
def removeGroupResponse (status : Nat) (endpointCount : Nat)
    (groupInfo : Option Nat) (l : LightCounters) : LightCounters :=
  if status = 0 then
    match groupInfo with
    | some sceneCount =>
      let sceneCapacity :=
        if l.sceneCapacity + sceneCount ≤ 255 then l.sceneCapacity + sceneCount
        else 255
      let capacity :=
        if l.groupCapacity + endpointCount ≤ 255 then l.groupCapacity + endpointCount
        else l.groupCapacity
      let count := if 0 < l.groupCount then l.groupCount - 1 else l.groupCount
      { groupCapacity := capacity, groupCount := count, sceneCapacity := sceneCapacity }
    | none => l
  else l

/-! ## Illuminance decoding (updateSensorNode, de_web_plugin.cpp)

The valid-range branch computes qPow(10, z / 10000) in double precision;
that floating-point computation is modelled by the oracle parameter
powTen, a rational approximation of the powers of ten the hardware
computes.  The branch structure around it is exact. -/

/-- The lux value updateSensorNode stores for a raw illuminance
    measurement z on cluster 0x0400 attribute 0x0000: FLS-NB models keep
    the raw value, values outside 1..0xfffe keep the raw value, and valid
    values go through the power computation, truncated, with the 0xffff
    fallback when the power falls below one. -/
def luxFromRaw (powTen : Nat → ℚ) (flsNB : Bool) (z : Nat) : Nat :=
  if flsNB then z
  else if 0 < z ∧ z < 65535 then
    let l := powTen z
    if 1 ≤ l then (⌊l - 1⌋).toNat else 65535
  else z

/-! ## Positional first-match predicate and concrete demo data -/

/-- The element a is the first member of l satisfying p: everything before
    it fails p.  Used to state which slot the linear scans of the source
    return or replace. -/
def firstSuchThat {α : Type} (p : α → Bool) (l : List α) (a : α) : Prop :=
  ∃ pre post, l = pre ++ a :: post ∧ p a = true ∧ ∀ x ∈ pre, p x = false

/-- A buttonevent condition on sensor 5, as in the button-to-scene
    scenario of the specification. -/
def demoCond : RuleCondition :=
  { address := "/sensors/5/state/buttonevent", ooperator := "eq", value := "16" }

/-- A scene recall action on group 3 scene 10. -/
def demoAct : RuleAction :=
  { address := "/groups/3/scenes/10", method := "PUT", body := "" }

/-- A stored Normal rule with id 1 coupling the demo condition to the demo
    action. -/
def demoRule1 : Rule :=
  { id := 1, name := "button to scene", owner := "apikey", status := "enabled",
    state := RuleState.normal, triggerPeriodic := 0, conditions := [demoCond],
    actions := [demoAct], timesTriggered := 0, etagGen := 0 }

/-- A Deleted rule sharing id 1, for exercising the getRuleForId
    fallback. -/
def demoRuleDeleted : Rule :=
  { demoRule1 with name := "old deleted rule", state := RuleState.deleted }

/-- A store where a Deleted rule with id 1 precedes a Normal one. -/
def demoRules9 : List Rule := [demoRuleDeleted, demoRule1]

/-- The ZHASwitch sensor with id 5 referenced by the demo condition. -/
def zhaSwitch5 : SensorInfo := { id := "5", stype := "ZHASwitch" }

/-- A present DaylightSensor with id 1. -/
def daylightSensor : SensorInfo := { id := "1", stype := "DaylightSensor" }

/-- A PUT body that resubmits the current conditions of demoRule1 and
    nothing else. -/
def bodyResubmitConds : RuleUpdateBody :=
  { name := none, status := none, conditions := some [demoCond], actions := none,
    periodic := none }

/-- A PUT body renaming the rule and nothing else. -/
def bodyRename : RuleUpdateBody :=
  { name := some "renamed", status := none, conditions := none, actions := none,
    periodic := none }

/-- Request fields for a unicast on/off request to destination n (the
    request id doubles as the destination for distinctness). -/
def mkReq (n : Nat) : ApsRequest :=
  { reqId := n, dstAddress := n, dstEndpoint := 1, srcEndpoint := 1,
    profileId := 260, clusterId := 6, txOptions := 0, asduSize := 3,
    dstAddrMode := AddrMode.ext, fireAndForget := false }

/-- A coalescible on/off task to destination n. -/
def mkOnOffTask (n : Nat) : TaskItem :=
  { taskType := TaskType.setOnOff, req := mkReq n, lightZombie := false }

/-- A ready queue filled to the 20-task bound with on/off tasks to twenty
    distinct destinations. -/
def demoQueue20 : List TaskItem := (List.range 20).map mkOnOffTask

/-- An on/off task whose signature matches the first queued demo task but
    whose request id differs. -/
def newOnOffTask : TaskItem :=
  { taskType := TaskType.setOnOff, req := { mkReq 0 with reqId := 99 },
    lightZombie := false }

/-- A never-coalescible read-attributes task. -/
def readAttrTask : TaskItem :=
  { taskType := TaskType.readAttributes, req := mkReq 0, lightZombie := false }

/-- A pipeline oracle where the controller is present, every send
    succeeds, and every group exists with an open rate window. -/
def envAllOk : PipelineEnv :=
  { hasApsCtrl := true, send := fun _ => SendResult.success,
    groupFound := fun _ => true, groupReady := fun _ => true }

/-- A start state holding one ready task and nothing in flight. -/
def demoPState : PState :=
  { tasks := [mkOnOffTask 3], running := [], inNetwork := true }

/-! ## Helper lemmas -/

/-- A linear find? scan returns exactly the first element satisfying the
    predicate. -/
theorem find?_iff_firstSuchThat {α : Type} (p : α → Bool) (l : List α) (a : α) :
    l.find? p = some a ↔ firstSuchThat p l a := by
  induction l with
  | nil => simp [firstSuchThat]
  | cons x xs ih =>
    by_cases hx : p x = true
    · rw [List.find?_cons_of_pos _ hx]
      constructor
      · intro h
        injection h with h
        subst h
        exact ⟨[], xs, rfl, hx, fun y hy => absurd hy (List.not_mem_nil y)⟩
      · rintro ⟨pre, post, heq, hpa, hpre⟩
        cases pre with
        | nil =>
          simp only [List.nil_append, List.cons.injEq] at heq
          rw [heq.1]
        | cons y ys =>
          simp only [List.cons_append, List.cons.injEq] at heq
          have hy := hpre y (List.mem_cons_self y ys)
          rw [← heq.1] at hy
          rw [hy] at hx
          exact absurd hx (by simp)
    · rw [List.find?_cons_of_neg _ hx]
      rw [ih]
      constructor
      · rintro ⟨pre, post, heq, hpa, hpre⟩
        refine ⟨x :: pre, post, by rw [heq, List.cons_append], hpa, ?_⟩
        intro y hy
        rcases List.mem_cons.mp hy with rfl | hy2
        · exact Bool.eq_false_iff.mpr (fun hc => hx hc)
        · exact hpre y hy2
      · rintro ⟨pre, post, heq, hpa, hpre⟩
        cases pre with
        | nil =>
          simp only [List.nil_append, List.cons.injEq] at heq
          rw [heq.1] at hx
          exact absurd hpa hx
        | cons y ys =>
          simp only [List.cons_append, List.cons.injEq] at heq
          exact ⟨ys, post, heq.2, hpa, fun z hz => hpre z (List.mem_cons_of_mem y hz)⟩

/-! ## C9: the getRuleForId lookup contract -/

/-- C9.  getRuleForId returns the first rule with the requested id whose
    state is not Deleted when one exists; only when every rule with the id
    is Deleted does it fall back to the first rule with the id, then
    necessarily a Deleted one; and it returns null exactly when no rule at
    all carries the id. -/
theorem C9_getRuleForId_contract (rules : List Rule) (id : Nat) :
    ((∃ r ∈ rules, r.id = id ∧ r.state ≠ RuleState.deleted) →
      ∃ r, getRuleForId rules id = some r ∧
        firstSuchThat (fun x => decide (x.id = id ∧ x.state ≠ RuleState.deleted)) rules r) ∧
    ((∀ x ∈ rules, x.id = id → x.state = RuleState.deleted) →
      (∃ r ∈ rules, r.id = id) →
      ∃ r, getRuleForId rules id = some r ∧ r.state = RuleState.deleted ∧
        firstSuchThat (fun x => decide (x.id = id)) rules r) ∧
    (getRuleForId rules id = none ↔ ∀ x ∈ rules, x.id ≠ id) := by
  refine ⟨?_, ?_, ?_⟩
  · rintro ⟨r, hr, hid, hst⟩
    have hne : rules.find? (fun x => decide (x.id = id ∧ x.state ≠ RuleState.deleted)) ≠ none := by
      intro hnone
      have := List.find?_eq_none.mp hnone r hr
      simp only [decide_eq_true_eq] at this
      exact this ⟨hid, hst⟩
    rcases Option.ne_none_iff_exists'.mp hne with ⟨a, ha⟩
    refine ⟨a, ?_, (find?_iff_firstSuchThat _ _ _).mp ha⟩
    unfold getRuleForId
    rw [ha]
  · intro hall
    rintro ⟨r, hr, hid⟩
    have hfirst : rules.find? (fun x => decide (x.id = id ∧ x.state ≠ RuleState.deleted)) = none := by
      rw [List.find?_eq_none]
      intro x hx
      simp only [decide_eq_true_eq, not_and, ne_eq, not_not]
      exact hall x hx
    have hne : rules.find? (fun x => decide (x.id = id)) ≠ none := by
      intro hnone
      have := List.find?_eq_none.mp hnone r hr
      simp only [decide_eq_true_eq] at this
      exact this hid
    rcases Option.ne_none_iff_exists'.mp hne with ⟨a, ha⟩
    have hamem := List.mem_of_find?_eq_some ha
    have haid : a.id = id := by
      have := List.find?_some ha
      simpa using this
    refine ⟨a, ?_, hall a hamem haid, (find?_iff_firstSuchThat _ _ _).mp ha⟩
    unfold getRuleForId
    rw [hfirst, ha]
  · unfold getRuleForId
    constructor
    · intro h x hx hid
      rcases hfind : rules.find? (fun x => decide (x.id = id ∧ x.state ≠ RuleState.deleted)) with _ | a
      · rw [hfind] at h
        have := List.find?_eq_none.mp h x hx
        simp only [decide_eq_true_eq] at this
        exact this hid
      · rw [hfind] at h
        exact Option.noConfusion h
    · intro h
      have h2 : rules.find? (fun x => decide (x.id = id)) = none := by
        rw [List.find?_eq_none]
        intro x hx
        simpa using h x hx
      have h1 : rules.find? (fun x => decide (x.id = id ∧ x.state ≠ RuleState.deleted)) = none := by
        rw [List.find?_eq_none]
        intro x hx
        simp only [decide_eq_true_eq, not_and]
        intro hid
        exact absurd hid (h x hx)
      rw [h1, h2]

/-- Witness for C9 on the demo store: a Deleted rule with id 1 precedes a
    Normal one, and the contract picks the Normal one. -/
theorem C9_witness :
    ∃ r, getRuleForId demoRules9 1 = some r ∧
      firstSuchThat (fun x => decide (x.id = 1 ∧ x.state ≠ RuleState.deleted)) demoRules9 r :=
  (C9_getRuleForId_contract demoRules9 1).1
    ⟨demoRule1, by decide, by decide, by decide⟩

/-! ## C2: a buttonevent-only rule never fires on a green-power event

The action loop of gpProcessButtonEvent runs only when both flags ok and
ok2 are set; both start false for each rule, ok is set by a matching
buttonevent condition and ok2 only by a lastupdated condition.  A rule
whose single condition is the matching buttonevent therefore never
triggers, although the handler comment, the specification and its
button-to-scene scenario all expect it to. -/

/-- C2.  With sensor 5 reporting button command id 16 and the store
    holding the demo rule whose only condition is buttonevent eq 16 on
    that sensor: the buttonevent condition itself matches (the ok flag is
    set), yet the rule does not trigger and its times-triggered counter
    stays 0, because the ok2 flag guarding the action loop was never
    set. -/
theorem C2_buttonevent_only_rule_never_triggers :
    (gpScanConditions "5" 16 true { ok := false, ok2 := false, id := "" }
      [demoCond]).ok = true ∧
    (gpScanConditions "5" 16 true { ok := false, ok2 := false, id := "" }
      [demoCond]).ok2 = false ∧
    gpRuleTriggers "5" 16 true "" demoRule1 = false ∧
    gpProcessRules "5" 16 true [demoRule1] = [demoRule1] := by
  refine ⟨by decide, by decide, by decide, ?_⟩
  decide

/-! ## C8: long and lat conditions on a DaylightSensor -/

/-- C8.  With a DaylightSensor present, a condition on its config long or
    config lat address is rejected with ERR_INVALID_VALUE for every
    operator, the dx operator with empty value included: the operator
    whitelist branch of checkConditions compares the confstate suffix
    against the state spellings of long and lat, which no valid address
    produces, so the whitelist stays empty. -/
theorem C8_daylight_long_lat_always_rejected (op v : String) :
    checkConditions [daylightSensor]
      [{ address := "/sensors/1/config/long", ooperator := op, value := v }] =
      CondCheck.errInvalidOperator ∧
    checkConditions [daylightSensor]
      [{ address := "/sensors/1/config/lat", ooperator := op, value := v }] =
      CondCheck.errInvalidOperator := by
  constructor
  · show checkConditionsGo _ _ = _
    unfold checkConditionsGo
    rw [show checkCondition (allValidAddresses [daylightSensor])
        { address := "/sensors/1/config/long", ooperator := op, value := v } =
        CondCheck.errInvalidOperator from ?_]
    · unfold checkCondition
      rw [show (if strHas "/sensors/1/config/long" "/config" then
            strSuffixFrom "/sensors/1/config/long" "/config"
          else if strHas "/sensors/1/config/long" "/state" then
            strSuffixFrom "/sensors/1/config/long" "/state"
          else "") = "/config/long" from by decide]
      rw [show (allValidAddresses [daylightSensor]).contains "/sensors/1/config/long" = true
          from by decide]
      simp [show validOperatorsFor "/config/long" = [] from by decide]
  · show checkConditionsGo _ _ = _
    unfold checkConditionsGo
    rw [show checkCondition (allValidAddresses [daylightSensor])
        { address := "/sensors/1/config/lat", ooperator := op, value := v } =
        CondCheck.errInvalidOperator from ?_]
    · unfold checkCondition
      rw [show (if strHas "/sensors/1/config/lat" "/config" then
            strSuffixFrom "/sensors/1/config/lat" "/config"
          else if strHas "/sensors/1/config/lat" "/state" then
            strSuffixFrom "/sensors/1/config/lat" "/state"
          else "") = "/config/lat" from by decide]
      rw [show (allValidAddresses [daylightSensor]).contains "/sensors/1/config/lat" = true
          from by decide]
      simp [show validOperatorsFor "/config/lat" = [] from by decide]

/-! ## C4: enqueue into a full task queue -/

/-- C4 counterexample.  With the ready queue already holding 20 tasks, a
    coalescible on/off task whose type and signature match a queued one is
    not rejected: addTask returns true and rewrites the queue in place
    (here the matching slot gets the new request id).  The claim required
    addTask to return false and leave the queue unchanged for every task
    once 20 entries are queued. -/
theorem C4_counterexample :
    demoQueue20.length = 20 ∧
    (addTask true demoQueue20 newOnOffTask).1 = true ∧
    (addTask true demoQueue20 newOnOffTask).2 ≠ demoQueue20 ∧
    (addTask true demoQueue20 newOnOffTask).2.length = 20 := by
  refine ⟨by decide, by decide, ?_, by decide⟩
  decide

/-- The coalescing scan finds nothing when no queued task matches the
    submitted type and signature. -/
theorem addTaskScan_eq_none (t : TaskItem) (tasks : List TaskItem)
    (h : ∀ x ∈ tasks, ¬(x.taskType = t.taskType ∧ sameSignature x t)) :
    addTaskScan t tasks = none := by
  induction tasks with
  | nil => rfl
  | cons x rest ih =>
    unfold addTaskScan
    rw [if_neg (h x (List.mem_cons_self x rest))]
    rw [ih (fun y hy => h y (List.mem_cons_of_mem x hy))]
    rfl

/-- C4 as amended.  A task submitted to a queue already holding at least
    20 entries is rejected, addTask returning false with the queue
    unchanged, provided it does not coalesce: either its type is one of
    the ten always-append types, or no queued task matches its type and
    seven-field signature.  (A matching coalescible task is instead
    replaced in place with addTask returning true, as the counterexample
    shows.) -/
theorem C4_full_queue_rejects (inNetwork : Bool) (tasks : List TaskItem) (t : TaskItem)
    (hlen : 20 ≤ tasks.length)
    (hno : alwaysAppendType t.taskType = true ∨
      ∀ x ∈ tasks, ¬(x.taskType = t.taskType ∧ sameSignature x t)) :
    addTask inNetwork tasks t = (false, tasks) := by
  cases inNetwork with
  | false => rfl
  | true =>
    have hscan : (if alwaysAppendType t.taskType then none else addTaskScan t tasks) = none := by
      rcases hno with h | h
      · rw [if_pos h]
      · by_cases ha : alwaysAppendType t.taskType
        · rw [if_pos ha]
        · rw [if_neg ha]
          exact addTaskScan_eq_none t tasks h
    have hlt : ¬ tasks.length < 20 := by omega
    unfold addTask
    rw [hscan]
    simp [hlt]

/-- Witness for C4 on the demo queue: a read-attributes task, a type that
    is never coalesced, bounces off the full queue. -/
theorem C4_witness : addTask true demoQueue20 readAttrTask = (false, demoQueue20) :=
  C4_full_queue_rejects true demoQueue20 readAttrTask (by decide) (Or.inl (by decide))

/-! ## C5: group count and capacity after AddGroup and RemoveGroup -/

/-- C5 counterexample.  A successful AddGroup response on a light with
    group capacity 1 and endpoint count 2 leaves the capacity at 1 where
    the claimed clamped decrement gives 0, and a successful RemoveGroup
    response on capacity 250 with endpoint count 10 leaves 250 where the
    claimed clamped increment gives 255: the source skips the update
    entirely when it would leave 0..255 instead of clamping into it. -/
theorem C5_counterexample :
    (addGroupResponse 0 2 { groupCapacity := 1, groupCount := 0, sceneCapacity := 0 }).groupCapacity = 1 ∧
    (addGroupResponse 0 2 { groupCapacity := 1, groupCount := 0, sceneCapacity := 0 }).groupCapacity ≠ 0 ∧
    (removeGroupResponse 0 10 (some 0)
      { groupCapacity := 250, groupCount := 1, sceneCapacity := 0 }).groupCapacity = 250 ∧
    (removeGroupResponse 0 10 (some 0)
      { groupCapacity := 250, groupCount := 1, sceneCapacity := 0 }).groupCapacity ≠ 255 := by
  refine ⟨by decide, by decide, by decide, by decide⟩

/-- C5 as amended.  On a successful AddGroup response the group count
    increments saturating at 255 and the capacity decreases by the
    endpoint count only when that does not underflow, staying put
    otherwise; on a successful RemoveGroup response with the GroupInfo
    record present the scene capacity is restored clamped at 255, the
    group capacity increases by the endpoint count only when the sum stays
    at most 255, staying put otherwise, and the group count decrements
    saturating at 0; unsuccessful responses and a missing GroupInfo leave
    every counter unchanged. -/
theorem C5_group_counters (status epc sc : Nat) (l : LightCounters)
    (hcnt : l.groupCount ≤ 255) :
    (status = 0 →
      (addGroupResponse status epc l).groupCount = min (l.groupCount + 1) 255 ∧
      (addGroupResponse status epc l).groupCapacity =
        (if epc ≤ l.groupCapacity then l.groupCapacity - epc else l.groupCapacity) ∧
      (removeGroupResponse status epc (some sc) l).groupCount = l.groupCount - 1 ∧
      (removeGroupResponse status epc (some sc) l).groupCapacity =
        (if l.groupCapacity + epc ≤ 255 then l.groupCapacity + epc else l.groupCapacity) ∧
      (removeGroupResponse status epc (some sc) l).sceneCapacity =
        min (l.sceneCapacity + sc) 255) ∧
    (status ≠ 0 →
      addGroupResponse status epc l = l ∧ removeGroupResponse status epc (some sc) l = l) ∧
    removeGroupResponse status epc none l = l := by
  refine ⟨?_, ?_, ?_⟩
  · intro hs
    subst hs
    refine ⟨?_, ?_, ?_, ?_, ?_⟩ <;>
    · simp only [addGroupResponse, removeGroupResponse]
      split_ifs <;> simp <;> omega
  · intro hs
    unfold addGroupResponse removeGroupResponse
    rw [if_neg hs, if_neg hs]
    exact ⟨rfl, rfl⟩
  · unfold removeGroupResponse
    by_cases hs : status = 0
    · rw [if_pos hs]
    · rw [if_neg hs]

/-- Witness for C5: a successful AddGroup response on a light with
    capacity 5, count 2 and one endpoint. -/
theorem C5_witness :
    (addGroupResponse 0 1 { groupCapacity := 5, groupCount := 2, sceneCapacity := 0 }).groupCount =
      min (2 + 1) 255 ∧
    (addGroupResponse 0 1 { groupCapacity := 5, groupCount := 2, sceneCapacity := 0 }).groupCapacity =
      (if 1 ≤ 5 then 5 - 1 else 5) := by
  have h := (C5_group_counters 0 1 0
    { groupCapacity := 5, groupCount := 2, sceneCapacity := 0 } (by decide)).1 rfl
  exact ⟨h.1, h.2.1⟩

/-! ## C6: illuminance decoding of invalid raw values -/

/-- C6 counterexample.  A raw illuminance value of 0 is stored as 0, not
    as the 0xFFFF invalid sentinel the claim requires: the source only
    computes inside the 1..0xFFFE window and otherwise keeps the raw
    value, so the sentinel appears exactly when the raw value already is
    0xFFFF.  The power oracle is never consulted at 0. -/
theorem C6_counterexample :
    luxFromRaw (fun _ => 1) false 0 = 0 ∧ (0 : Nat) ≠ 65535 := by
  exact ⟨by decide, by decide⟩

/-- C6 as amended.  For a non-FLS-NB sensor: a raw value of 0 is stored
    unchanged as 0, a raw value of 0xFFFF is stored unchanged as 0xFFFF
    (the sentinel), and a raw value in 1..0xFFFE is decoded through the
    floating-point power computation, truncated after subtracting one,
    with the 0xFFFF fallback when the computed power lies below one. -/
theorem C6_lux_decoding (powTen : Nat → ℚ) :
    luxFromRaw powTen false 0 = 0 ∧
    luxFromRaw powTen false 65535 = 65535 ∧
    (∀ z, 0 < z → z < 65535 → 1 ≤ powTen z →
      luxFromRaw powTen false z = (⌊powTen z - 1⌋).toNat) ∧
    (∀ z, 0 < z → z < 65535 → powTen z < 1 → luxFromRaw powTen false z = 65535) := by
  refine ⟨rfl, ?_, ?_, ?_⟩
  · unfold luxFromRaw
    rw [if_neg (by simp)]
    rw [if_neg (by omega)]
  · intro z hz1 hz2 hp
    unfold luxFromRaw
    rw [if_neg (by simp)]
    rw [if_pos ⟨hz1, hz2⟩]
    simp only [if_pos hp]
  · intro z hz1 hz2 hp
    unfold luxFromRaw
    rw [if_neg (by simp)]
    rw [if_pos ⟨hz1, hz2⟩]
    simp only [if_neg (by exact not_le.mpr hp)]

/-- Witness for C6: a power value of 21/2 at raw value 100 stores
    truncated 19/2, that is 9 lux. -/
theorem C6_witness : luxFromRaw (fun _ => (21 : ℚ)/2) false 100 = 9 := by
  have h := (C6_lux_decoding (fun _ => (21 : ℚ)/2)).2.2.1 100 (by norm_num) (by norm_num)
    (by norm_num)
  rw [h]
  norm_num
  rfl

/-! ## C1: POST of a duplicate rule -/

/-- The candidate never decreases during an id-search pass. -/
theorem nextIdPass_le (rules : List Rule) (c : Nat) : c ≤ nextIdPass rules c := by
  unfold nextIdPass
  induction rules generalizing c with
  | nil => exact Nat.le_refl c
  | cons r rest ih =>
    refine Nat.le_trans ?_ (ih (if r.id = c then r.id + 1 else c))
    by_cases h : r.id = c
    · rw [if_pos h]
      omega
    · rw [if_neg h]

/-- The candidate after a pass stays below max of its start and the
    largest id plus one. -/
theorem nextIdPass_ub (rules : List Rule) (c : Nat) :
    nextIdPass rules c ≤ max c (maxRuleId rules + 1) := by
  unfold nextIdPass maxRuleId
  induction rules generalizing c with
  | nil => simp
  | cons r rest ih =>
    simp only [List.foldl_cons, List.foldr_cons]
    refine Nat.le_trans (ih (if r.id = c then r.id + 1 else c)) ?_
    by_cases h : r.id = c
    · rw [if_pos h]
      subst h
      omega
    · rw [if_neg h]
      omega

/-- A pass started above every id changes nothing. -/
theorem nextIdPass_fix_of_gt (rules : List Rule) (c : Nat)
    (h : maxRuleId rules < c) : nextIdPass rules c = c := by
  unfold nextIdPass maxRuleId at *
  induction rules generalizing c with
  | nil => rfl
  | cons r rest ih =>
    simp only [List.foldr_cons] at h
    simp only [List.foldl_cons]
    rw [if_neg (by omega)]
    exact ih c (by omega)

/-- A fixed point of the pass collides with no stored id: had any rule
    carried the candidate, the pass would have strictly bumped it. -/
theorem nextIdPass_fix_not_mem (rules : List Rule) (c : Nat)
    (h : nextIdPass rules c = c) : ∀ r ∈ rules, r.id ≠ c := by
  unfold nextIdPass at h
  induction rules with
  | nil => intro r hr; exact absurd hr (List.not_mem_nil r)
  | cons x rest ih =>
    simp only [List.foldl_cons] at h
    by_cases hx : x.id = c
    · exfalso
      rw [if_pos hx] at h
      have := nextIdPass_le rest (x.id + 1)
      unfold nextIdPass at this
      omega
    · rw [if_neg hx] at h
      intro r hr
      rcases List.mem_cons.mp hr with rfl | hr2
      · exact hx
      · exact ih h r hr2

/-- With fuel covering the distance to the id bound, the do-while of
    createRule halts in a fixed point of the pass. -/
theorem genLoopFuel_fix (rules : List Rule) :
    ∀ (fuel c : Nat), maxRuleId rules + 2 ≤ fuel + c →
      nextIdPass rules (genLoopFuel rules fuel c) = genLoopFuel rules fuel c := by
  intro fuel
  induction fuel with
  | zero =>
    intro c hc
    unfold genLoopFuel
    exact nextIdPass_fix_of_gt rules c (by omega)
  | succ f ih =>
    intro c hc
    unfold genLoopFuel
    by_cases h : nextIdPass rules c = c
    · rw [if_pos h]
      exact h
    · rw [if_neg h]
      have hlt : c < nextIdPass rules c :=
        Nat.lt_of_le_of_ne (nextIdPass_le rules c) (fun e => h e.symm)
    -- the pass moved, so the candidate was at most the bound and strictly grew
      have hub := nextIdPass_ub rules c
      have hcb : c ≤ maxRuleId rules + 1 := by
        by_contra hcb
        exact h (nextIdPass_fix_of_gt rules c (by omega))
      exact ih (nextIdPass rules c) (by omega)

/-- The id createRule assigns is unused: it differs from the id of every
    rule already stored. -/
theorem freshRuleId_not_used (rules : List Rule) :
    ∀ r ∈ rules, r.id ≠ freshRuleId rules := by
  unfold freshRuleId
  exact nextIdPass_fix_not_mem rules _
    (genLoopFuel_fix rules (maxRuleId rules + 2) 1 (by omega))

/-- The de-dup insert replaces the first duplicate slot in place when one
    exists. -/
theorem dedupInsert_found (n : Rule) (l : List Rule)
    (h : ∃ d ∈ l, d.actions = n.actions ∧ d.conditions = n.conditions) :
    ∃ pre d post, l = pre ++ d :: post ∧
      d.actions = n.actions ∧ d.conditions = n.conditions ∧
      (∀ x ∈ pre, ¬(x.actions = n.actions ∧ x.conditions = n.conditions)) ∧
      dedupInsert n l = pre ++ n :: post := by
  induction l with
  | nil => rcases h with ⟨d, hd, _⟩; exact absurd hd (List.not_mem_nil d)
  | cons x rest ih =>
    by_cases hx : x.actions = n.actions ∧ x.conditions = n.conditions
    · refine ⟨[], x, rest, rfl, hx.1, hx.2, by simp, ?_⟩
      unfold dedupInsert
      rw [if_pos hx]
      rfl
    · have h2 : ∃ d ∈ rest, d.actions = n.actions ∧ d.conditions = n.conditions := by
        rcases h with ⟨d, hd, hda⟩
        rcases List.mem_cons.mp hd with rfl | hd2
        · exact absurd hda hx
        · exact ⟨d, hd2, hda⟩
      rcases ih h2 with ⟨pre, d, post, heq, hda, hdc, hpre, hres⟩
      refine ⟨x :: pre, d, post, by rw [heq, List.cons_append], hda, hdc, ?_, ?_⟩
      · intro y hy
        rcases List.mem_cons.mp hy with rfl | hy2
        · exact hx
        · exact hpre y hy2
      · unfold dedupInsert
        rw [if_neg hx, hres, List.cons_append]

/-- The de-dup insert leaves the length unchanged when a duplicate exists
    and grows it by one otherwise. -/
theorem dedupInsert_length (n : Rule) (l : List Rule) :
    (dedupInsert n l).length =
      (if ∃ d ∈ l, d.actions = n.actions ∧ d.conditions = n.conditions
       then l.length else l.length + 1) := by
  induction l with
  | nil => simp [dedupInsert]
  | cons x rest ih =>
    by_cases hx : x.actions = n.actions ∧ x.conditions = n.conditions
    · unfold dedupInsert
      rw [if_pos hx]
      rw [if_pos ⟨x, List.mem_cons_self x rest, hx⟩]
      simp
    · unfold dedupInsert
      rw [if_neg hx]
      simp only [List.length_cons, ih]
      by_cases h2 : ∃ d ∈ rest, d.actions = n.actions ∧ d.conditions = n.conditions
      · rw [if_pos h2, if_pos (by rcases h2 with ⟨d, hd, hda⟩; exact ⟨d, List.mem_cons_of_mem x hd, hda⟩)]
      · rw [if_neg h2, if_neg (by
          rintro ⟨d, hd, hda⟩
          rcases List.mem_cons.mp hd with rfl | hd2
          · exact hx hda
          · exact h2 ⟨d, hd2, hda⟩)]

/-- The de-dup insert keeps the count of duplicate-shaped rules when a
    duplicate exists, and raises it by one otherwise. -/
theorem dedupInsert_countP (n : Rule) (l : List Rule) :
    l.countP (fun x => decide (x.actions = n.actions ∧ x.conditions = n.conditions)) = 1 →
    (dedupInsert n l).countP
      (fun x => decide (x.actions = n.actions ∧ x.conditions = n.conditions)) = 1 := by
  induction l with
  | nil => intro h; simp [List.countP_nil] at h
  | cons x rest ih =>
    intro h
    rw [List.countP_cons] at h
    by_cases hx : x.actions = n.actions ∧ x.conditions = n.conditions
    · unfold dedupInsert
      rw [if_pos hx]
      rw [List.countP_cons]
      rw [decide_eq_true hx] at h
      rw [decide_eq_true (⟨rfl, rfl⟩ :
        n.actions = n.actions ∧ n.conditions = n.conditions)]
      exact h
    · unfold dedupInsert
      rw [if_neg hx]
      rw [decide_eq_false hx, if_neg Bool.false_ne_true] at h
      rw [List.countP_cons, decide_eq_false hx, if_neg Bool.false_ne_true]
      have h2 := ih (by omega)
      omega

/-- C1 counterexample.  The store holds one rule, id 1, with the demo
    conditions and actions; the same conditions and actions are posted
    again.  The claim requires the reply to carry the id of the existing
    rule, 1; the source instead generates an id unused in the store and
    answers 2, writing the new rule, new id included, into the duplicate
    slot. -/
theorem C1_counterexample :
    (createRulePost [demoRule1] "again" "apikey" none none [demoCond] [demoAct] 5).2 = 2 ∧
    demoRule1.id = 1 ∧
    ((2 : Nat) = 1 → False) ∧
    (createRulePost [demoRule1] "again" "apikey" none none [demoCond] [demoAct] 5).1 =
      [{ id := 2, name := "again", owner := "apikey", status := "enabled",
         state := RuleState.normal, triggerPeriodic := 0, conditions := [demoCond],
         actions := [demoAct], timesTriggered := 0, etagGen := 5 }] := by
  refine ⟨by decide, by decide, by decide, ?_⟩
  decide

/-- C1 as amended.  A POST whose conditions and actions equal those of a
    stored rule succeeds with a fresh id different from the id of every
    stored rule, the existing rule's first duplicate slot is replaced in
    place by the new rule, the store length is unchanged, and when exactly
    one duplicate existed exactly one rule with those conditions and
    actions exists afterwards. -/
theorem C1_duplicate_post_replaces_slot (rules : List Rule) (name owner : String)
    (status : Option String) (periodic : Option Int) (conds : List RuleCondition)
    (acts : List RuleAction) (fresh : Nat)
    (hdup : ∃ d ∈ rules, d.actions = acts ∧ d.conditions = conds) :
    (∀ r ∈ rules, r.id ≠ (createRulePost rules name owner status periodic conds acts fresh).2) ∧
    (createRulePost rules name owner status periodic conds acts fresh).1.length = rules.length ∧
    (∃ pre d post, rules = pre ++ d :: post ∧
      d.actions = acts ∧ d.conditions = conds ∧
      (∀ x ∈ pre, ¬(x.actions = acts ∧ x.conditions = conds)) ∧
      (createRulePost rules name owner status periodic conds acts fresh).1 =
        pre ++ { id := (createRulePost rules name owner status periodic conds acts fresh).2,
                 name := name, owner := owner, status := status.getD "enabled",
                 state := RuleState.normal, triggerPeriodic := periodic.getD 0,
                 conditions := conds, actions := acts, timesTriggered := 0,
                 etagGen := fresh } :: post) ∧
    (rules.countP (fun x => decide (x.actions = acts ∧ x.conditions = conds)) = 1 →
      (createRulePost rules name owner status periodic conds acts fresh).1.countP
        (fun x => decide (x.actions = acts ∧ x.conditions = conds)) = 1) := by
  refine ⟨?_, ?_, ?_, ?_⟩
  · intro r hr
    exact freshRuleId_not_used rules r hr
  · show (dedupInsert _ rules).length = rules.length
    rw [dedupInsert_length]
    rw [if_pos hdup]
  · rcases dedupInsert_found
      { id := freshRuleId rules, name := name, owner := owner,
        status := status.getD "enabled", state := RuleState.normal,
        triggerPeriodic := periodic.getD 0, conditions := conds, actions := acts,
        timesTriggered := 0, etagGen := fresh } rules hdup
      with ⟨pre, d, post, heq, hda, hdc, hpre, hres⟩
    exact ⟨pre, d, post, heq, hda, hdc, hpre, hres⟩
  · intro hcount
    exact dedupInsert_countP
      { id := freshRuleId rules, name := name, owner := owner,
        status := status.getD "enabled", state := RuleState.normal,
        triggerPeriodic := periodic.getD 0, conditions := conds, actions := acts,
        timesTriggered := 0, etagGen := fresh } rules hcount

/-- Witness for C1: posting the demo conditions and actions onto the
    one-rule demo store keeps exactly one rule of that shape. -/
theorem C1_witness :
    (createRulePost [demoRule1] "again" "apikey" none none [demoCond] [demoAct] 5).1.countP
      (fun x => decide (x.actions = [demoAct] ∧ x.conditions = [demoCond])) = 1 := by
  have h := C1_duplicate_post_replaces_slot [demoRule1] "again" "apikey" none none
    [demoCond] [demoAct] 5 ⟨demoRule1, by decide, by decide, by decide⟩
  exact h.2.2.2 (by decide)

/-! ## C7: PUT with no changed fields and the etag -/

/-- C7 counterexample.  A PUT that merely resubmits the current
    conditions of the demo rule, with no other key, still takes the
    changed path: the handler sets the changed flag unconditionally
    whenever a conditions or actions key is present, so the etag is
    recomputed although nothing differs.  The claim required the etag to
    stay unchanged for such a body. -/
theorem C7_counterexample :
    (updateMatchedRule [zhaSwitch5] (fun _ => true) 7 bodyResubmitConds demoRule1).changed = true ∧
    (updateMatchedRule [zhaSwitch5] (fun _ => true) 7 bodyResubmitConds demoRule1).rule.etagGen = 7 ∧
    demoRule1.etagGen = 0 ∧
    ((7 : Nat) = 0 → False) ∧
    (updateMatchedRule [zhaSwitch5] (fun _ => true) 7 bodyResubmitConds demoRule1).rule.conditions =
      demoRule1.conditions := by
  refine ⟨?_, ?_, by decide, by decide, ?_⟩ <;> decide

/-- C7 as amended.  A PUT whose body carries neither a conditions nor an
    actions key, and whose provided name, status and periodic values equal
    the rule's current ones, leaves the changed flag unset and the etag
    unchanged; but any body carrying a conditions or actions key takes the
    changed path and recomputes the etag even when the submitted lists
    equal the current ones, as the counterexample shows. -/
theorem C7_unchanged_put_keeps_etag (sensors : List SensorInfo) (jsonOk : String → Bool)
    (fresh : Nat) (body : RuleUpdateBody) (r : Rule)
    (ha : body.actions = none) (hc : body.conditions = none)
    (hn : ∀ n, body.name = some n → n = r.name)
    (hs : ∀ st, body.status = some st → st = r.status)
    (hp : ∀ p, body.periodic = some p → p = r.triggerPeriodic) :
    (updateMatchedRule sensors jsonOk fresh body r).changed = false ∧
    (updateMatchedRule sensors jsonOk fresh body r).rule.etagGen = r.etagGen := by
  unfold updateMatchedRule
  rw [ha, hc]
  simp only [Option.isSome_none, Bool.or_self, Bool.false_eq_true, if_false]
  have hname : (match body.name with
      | some n => if n ≠ "" ∧ r.name ≠ n then ({ r with name := n }, true) else (r, false)
      | none => (r, false)) = (r, false) := by
    rcases hbn : body.name with _ | n
    · rfl
    · have := hn n hbn
      subst this
      simp
  rw [hname]
  have hstatus : (match body.status with
      | some st => if r.status ≠ st then ({ r with status := st }, true) else (r, false)
      | none => (r, false)) = (r, false) := by
    rcases hbs : body.status with _ | st
    · rfl
    · have := hs st hbs
      subst this
      simp
  rw [hstatus]
  have hper : (match body.periodic with
      | some p => if r.triggerPeriodic ≠ p then ({ r with triggerPeriodic := p }, true) else (r, false)
      | none => (r, false)) = (r, false) := by
    rcases hbp : body.periodic with _ | p
    · rfl
    · have := hp p hbp
      subst this
      simp
  rw [hper]
  unfold updateActPhase
  rw [ha]
  unfold updateCondPhase
  rw [hc]
  unfold finishUpdate
  rcases body.status.isSome with _ | _ <;> simp

/-- Witness for C7: a PUT of the demo rule's current name only leaves the
    changed flag unset and the etag at its stored value 0. -/
theorem C7_witness :
    (updateMatchedRule [zhaSwitch5] (fun _ => true) 7
      { name := some "button to scene", status := none, conditions := none,
        actions := none, periodic := none } demoRule1).changed = false ∧
    (updateMatchedRule [zhaSwitch5] (fun _ => true) 7
      { name := some "button to scene", status := none, conditions := none,
        actions := none, periodic := none } demoRule1).rule.etagGen = demoRule1.etagGen :=
  C7_unchanged_put_keeps_etag [zhaSwitch5] (fun _ => true) 7 _ demoRule1 rfl rfl
    (fun n h => by injection h with h; rw [← h]; rfl)
    (fun st h => by cases h) (fun p h => by cases h)

/-! ## C10: a status-less PUT re-enables the rule -/

/-- The matched-rule branch without a status key re-enables the rule and
    completes without Bad Request whenever the provided actions and
    conditions pass their checks. -/
theorem updateMatchedRule_enables (sensors : List SensorInfo) (jsonOk : String → Bool)
    (fresh : Nat) (body : RuleUpdateBody) (r : Rule)
    (hst : body.status = none)
    (hA : ∀ as, body.actions = some as → checkActions jsonOk as = ActionCheck.ok)
    (hC : ∀ cs, body.conditions = some cs → checkConditions sensors cs = CondCheck.ok) :
    (updateMatchedRule sensors jsonOk fresh body r).rule.status = "enabled" ∧
    (updateMatchedRule sensors jsonOk fresh body r).badRequest = false := by
  have hfinish : ∀ (r2 : Rule) (ch : Bool),
      (finishUpdate fresh body.status.isSome r2 ch).rule.status = "enabled" ∧
      (finishUpdate fresh body.status.isSome r2 ch).badRequest = false := by
    intro r2 ch
    unfold finishUpdate
    rw [hst]
    simp only [Option.isSome_none, Bool.not_false, if_pos trivial]
    cases ch <;> simp
  have hcond : ∀ (r2 : Rule) (ch : Bool),
      (updateCondPhase sensors fresh body r2 ch).rule.status = "enabled" ∧
      (updateCondPhase sensors fresh body r2 ch).badRequest = false := by
    intro r2 ch
    unfold updateCondPhase
    rcases hbc : body.conditions with _ | cs
    · exact hfinish r2 ch
    · dsimp only
      rw [if_pos (hC cs hbc)]
      exact hfinish { r2 with conditions := cs } true
  unfold updateMatchedRule
  rcases hba : body.actions with _ | as
  · unfold updateActPhase
    rw [hba]
    exact hcond _ _
  · unfold updateActPhase
    rw [hba]
    dsimp only
    rw [if_pos (hA as hba)]
    exact hcond _ _

/-- C10.  A PUT that passes validation, carries no status key, and finds
    a Normal rule with the requested id completes without Bad Request and
    leaves that rule with status enabled, whatever its previous status
    was: the store after the PUT is the store with the first Normal slot
    of that id replaced by the mutated, re-enabled rule. -/
theorem C10_statusless_put_enables (sensors : List SensorInfo) (jsonOk : String → Bool)
    (fresh : Nat) (body : RuleUpdateBody) (id : Nat)
    (hst : body.status = none)
    (hA : ∀ as, body.actions = some as → checkActions jsonOk as = ActionCheck.ok)
    (hC : ∀ cs, body.conditions = some cs → checkConditions sensors cs = CondCheck.ok) :
    ∀ (pre post : List Rule) (r : Rule),
      r.state = RuleState.normal → r.id = id →
      (∀ x ∈ pre, ¬(x.state = RuleState.normal ∧ x.id = id)) →
      updateRuleList sensors jsonOk fresh body id (pre ++ r :: post) =
        pre ++ (updateMatchedRule sensors jsonOk fresh body r).rule :: post ∧
      (updateMatchedRule sensors jsonOk fresh body r).rule.status = "enabled" ∧
      (updateMatchedRule sensors jsonOk fresh body r).badRequest = false := by
  intro pre post r hrs hrid hpre
  have hmain := updateMatchedRule_enables sensors jsonOk fresh body r hst hA hC
  refine ⟨?_, hmain.1, hmain.2⟩
  induction pre with
  | nil =>
    simp only [List.nil_append]
    unfold updateRuleList
    rw [if_pos ⟨hrs, hrid⟩]
  | cons x xs ih =>
    simp only [List.cons_append]
    unfold updateRuleList
    rw [if_neg (hpre x (List.mem_cons_self x xs))]
    rw [ih (fun y hy => hpre y (List.mem_cons_of_mem x hy))]

/-- Witness for C10: renaming the previously disabled demo rule with a
    status-less PUT re-enables it. -/
theorem C10_witness :
    updateRuleList [zhaSwitch5] (fun _ => true) 3 bodyRename 1
      [{ demoRule1 with status := "disabled" }] =
      [(updateMatchedRule [zhaSwitch5] (fun _ => true) 3 bodyRename
        { demoRule1 with status := "disabled" }).rule] ∧
    (updateMatchedRule [zhaSwitch5] (fun _ => true) 3 bodyRename
      { demoRule1 with status := "disabled" }).rule.status = "enabled" := by
  have h := C10_statusless_put_enables [zhaSwitch5] (fun _ => true) 3 bodyRename 1
    rfl (fun as has => by cases has) (fun cs hcs => by cases hcs)
    [] [] { demoRule1 with status := "disabled" } rfl rfl
    (fun y hy => absurd hy (List.not_mem_nil y))
  exact ⟨h.1, h.2.1⟩

/-! ## C3: at most one in-flight request per destination -/

/-- Appending a task whose destination is not among the running ones
    keeps the running destinations pairwise distinct. -/
theorem pairwise_append_task (running : List TaskItem) (t : TaskItem)
    (h : running.Pairwise (fun a b => a.req.dstAddress ≠ b.req.dstAddress))
    (hb : ¬ running.any (fun r => r.req.dstAddress = t.req.dstAddress) = true) :
    (running ++ [t]).Pairwise (fun a b => a.req.dstAddress ≠ b.req.dstAddress) := by
  rw [List.pairwise_append]
  refine ⟨h, List.pairwise_singleton _ t, ?_⟩
  intro a ha b hb2
  rcases List.mem_singleton.mp hb2 with rfl
  intro hdst
  exact hb (List.any_eq_true.mpr ⟨a, ha, by simp [hdst]⟩)

/-- The dispatch loop only ever appends a task whose destination differs
    from every running destination, so pairwise distinctness of the
    running destinations is preserved. -/
theorem processLoop_pairwise (env : PipelineEnv) (running : List TaskItem)
    (ts : List TaskItem)
    (h : running.Pairwise (fun a b => a.req.dstAddress ≠ b.req.dstAddress)) :
    (processLoop env running ts).2.Pairwise
      (fun a b => a.req.dstAddress ≠ b.req.dstAddress) := by
  induction ts with
  | nil => exact h
  | cons t rest ih =>
    unfold processLoop
    by_cases hz : t.lightZombie = true
    · rw [if_pos hz]
      exact h
    · rw [if_neg hz]
      by_cases hbusy : running.any (fun r => r.req.dstAddress = t.req.dstAddress) = true
      · rw [if_pos hbusy]
        exact ih
      · rw [if_neg hbusy]
        by_cases hm : t.req.dstAddrMode = AddrMode.group
        · rw [if_pos hm]
          by_cases hg : env.groupFound t.req.dstAddress = true ∧
              env.groupReady t.req.dstAddress = true
          · rw [if_pos hg]
            rcases hsend : env.send t with _ | _ | _
            · show List.Pairwise (fun a b => a.req.dstAddress ≠ b.req.dstAddress)
                (if t.req.fireAndForget = true then running else running ++ [t])
              by_cases hff : t.req.fireAndForget = true
              · rw [if_pos hff]
                exact h
              · rw [if_neg hff]
                exact pairwise_append_task running t h hbusy
            · exact ih
            · exact ih
          · rw [if_neg hg]
            exact ih
        · rw [if_neg hm]
          rw [if_neg hz]
          rcases hsend : env.send t with _ | _ | _
          · show List.Pairwise (fun a b => a.req.dstAddress ≠ b.req.dstAddress)
              (if t.req.fireAndForget = true then running else running ++ [t])
            by_cases hff : t.req.fireAndForget = true
            · rw [if_pos hff]
              exact h
            · rw [if_neg hff]
              exact pairwise_append_task running t h hbusy
          · exact h
          · exact ih

/-- A task in the running list after the dispatch loop either was already
    running or had a destination no running task used. -/
theorem processLoop_mem (env : PipelineEnv) (running ts : List TaskItem) (t : TaskItem)
    (hmem : t ∈ (processLoop env running ts).2) :
    t ∈ running ∨ ∀ r ∈ running, r.req.dstAddress ≠ t.req.dstAddress := by
  induction ts with
  | nil => exact Or.inl hmem
  | cons x rest ih =>
    unfold processLoop at hmem
    by_cases hz : x.lightZombie = true
    · rw [if_pos hz] at hmem
      exact Or.inl hmem
    · rw [if_neg hz] at hmem
      by_cases hbusy : running.any (fun r => r.req.dstAddress = x.req.dstAddress) = true
      · rw [if_pos hbusy] at hmem
        exact ih hmem
      · rw [if_neg hbusy] at hmem
        have happend : t ∈ running ++ [x] →
            t ∈ running ∨ ∀ r ∈ running, r.req.dstAddress ≠ t.req.dstAddress := by
          intro hma
          rcases List.mem_append.mp hma with hml | hmr
          · exact Or.inl hml
          · rcases List.mem_singleton.mp hmr with rfl
            refine Or.inr (fun r hr hdst => ?_)
            exact hbusy (List.any_eq_true.mpr ⟨r, hr, by simp [hdst]⟩)
        by_cases hm : x.req.dstAddrMode = AddrMode.group
        · rw [if_pos hm] at hmem
          by_cases hg : env.groupFound x.req.dstAddress = true ∧
              env.groupReady x.req.dstAddress = true
          · rw [if_pos hg] at hmem
            rcases hsend : env.send x with _ | _ | _ <;> rw [hsend] at hmem
            · by_cases hff : x.req.fireAndForget = true
              · rw [if_pos hff] at hmem
                exact Or.inl hmem
              · rw [if_neg hff] at hmem
                exact happend hmem
            · exact ih hmem
            · exact ih hmem
          · rw [if_neg hg] at hmem
            exact ih hmem
        · rw [if_neg hm, if_neg hz] at hmem
          rcases hsend : env.send x with _ | _ | _ <;> rw [hsend] at hmem
          · by_cases hff : x.req.fireAndForget = true
            · rw [if_pos hff] at hmem
              exact Or.inl hmem
            · rw [if_neg hff] at hmem
              exact happend hmem
          · exact Or.inl hmem
          · exact ih hmem

/-- A processTasks tick preserves pairwise distinct running
    destinations. -/
theorem processTasks_pairwise (env : PipelineEnv) (s : PState)
    (h : s.running.Pairwise (fun a b => a.req.dstAddress ≠ b.req.dstAddress)) :
    (processTasks env s).running.Pairwise
      (fun a b => a.req.dstAddress ≠ b.req.dstAddress) := by
  unfold processTasks
  by_cases h1 : env.hasApsCtrl = true
  · rw [if_neg (fun hc => hc h1)]
    by_cases h2 : s.tasks = []
    · rw [if_pos h2]
      exact h
    · rw [if_neg h2]
      by_cases h3 : s.inNetwork = true
      · rw [if_neg (fun hc => hc h3)]
        by_cases h4 : 4 < s.running.length
        · rw [if_pos h4]
          exact h
        · rw [if_neg h4]
          exact processLoop_pairwise env s.running s.tasks h
      · rw [if_pos h3]
        exact List.Pairwise.nil
  · rw [if_pos h1]
    exact h

/-- Erasing the confirmed task yields a sublist of the running list. -/
theorem eraseFirstById_sublist (cid : Nat) (l ts : List TaskItem)
    (h : eraseFirstById cid l = some ts) : ts.Sublist l := by
  induction l generalizing ts with
  | nil => cases h
  | cons x rest ih =>
    unfold eraseFirstById at h
    by_cases hx : x.req.reqId = cid
    · rw [if_pos hx] at h
      injection h with h
      subst h
      exact List.sublist_cons_self x rest
    · rw [if_neg hx] at h
      rcases hrec : eraseFirstById cid rest with _ | ts2
      · rw [hrec] at h
        cases h
      · rw [hrec] at h
        injection h with h
        subst h
        exact List.Sublist.cons₂ x (ih ts2 hrec)

/-- A radio confirm preserves pairwise distinct running destinations. -/
theorem apsdeDataConfirm_pairwise (env : PipelineEnv) (cid : Nat) (s : PState)
    (h : s.running.Pairwise (fun a b => a.req.dstAddress ≠ b.req.dstAddress)) :
    (apsdeDataConfirm env cid s).running.Pairwise
      (fun a b => a.req.dstAddress ≠ b.req.dstAddress) := by
  unfold apsdeDataConfirm
  rcases he : eraseFirstById cid s.running with _ | rs
  · exact h
  · exact processTasks_pairwise env { s with running := rs }
      (List.Pairwise.sublist (eraseFirstById_sublist cid s.running rs he) h)

/-- Every pipeline transition preserves pairwise distinct running
    destinations. -/
theorem pstep_pairwise {s t : PState} (hstep : PStep s t)
    (h : s.running.Pairwise (fun a b => a.req.dstAddress ≠ b.req.dstAddress)) :
    t.running.Pairwise (fun a b => a.req.dstAddress ≠ b.req.dstAddress) := by
  cases hstep with
  | process env s => exact processTasks_pairwise env s h
  | confirm env cid s => exact apsdeDataConfirm_pairwise env cid s h
  | enqueue t s => exact h
  | refreshAll s => exact List.Pairwise.nil
  | netChange b s => exact h

/-- C3.  In every reachable pipeline state the running tasks have
    pairwise distinct destination addresses, and the dispatch loop never
    moves a task into the running list while another running task has the
    same destination: every member of the running list after a dispatch
    either was running before or had a destination used by no previously
    running task. -/
theorem C3_running_destinations_distinct :
    (∀ s : PState, PReachable s →
      s.running.Pairwise (fun a b => a.req.dstAddress ≠ b.req.dstAddress)) ∧
    (∀ (env : PipelineEnv) (running ts : List TaskItem) (t : TaskItem),
      t ∈ (processLoop env running ts).2 →
      t ∈ running ∨ ∀ r ∈ running, r.req.dstAddress ≠ t.req.dstAddress) := by
  constructor
  · intro s hs
    induction hs with
    | init tasks b => exact List.Pairwise.nil
    | step hr hstep ih => exact pstep_pairwise hstep ih
  · exact processLoop_mem

/-- Witness for C3: dispatching the one ready demo task moves it into the
    running list and the invariant holds there. -/
theorem C3_witness :
    (processTasks envAllOk demoPState).running.Pairwise
      (fun a b => a.req.dstAddress ≠ b.req.dstAddress) :=
  C3_running_destinations_distinct.1 (processTasks envAllOk demoPState)
    (PReachable.step (PReachable.init [mkOnOffTask 3] true)
      (PStep.process envAllOk demoPState))

end Deconz
